import Mathlib

/-!
Verification of the RS485 door-lock protocol layer of `NetLock.py`.

The development shallowly embeds the two core components of the source:

* `RS485PacketBuilder` (the packet codec): Python strings are modelled as
  `List Char`, Python byte arrays as `List Nat` (each element a byte value),
  and the fallible `bytes.fromhex` as an `Option`-returning decoder
  (`none` models the `ValueError` escape).  Python's `f-string` hex
  formatting (`f'{n:02x}'`, `f'{lrc:02x}'`) is modelled by `formatInt02x`
  and `pad2 (toHex n)`.
* `RS485Communicator` (the serial-link manager): the mutable object state
  (`self.ser`) becomes an explicit `CommState`; the outcome of the external
  `serial.Serial(...)` constructor and of `ser.write(...)` is supplied by an
  environment value, since `pyserial` is outside the repository.  Raising
  is modelled by an explicit outcome value, and the bytes written to the
  port are collected in a list.

A small interleaving model (`stepRace` and friends) captures the two call
sites of `open_connection` — the foreground `send_packet` path and the
background `reconnect` thread — to settle the mutual-exclusion claim.
-/

/-- Hex-digit test matching the characters accepted by Python's
`bytes.fromhex`: `0-9`, `a-f`, `A-F` (by code point). -/
def isHexDigit (c : Char) : Bool :=
  decide ((48 ≤ c.toNat ∧ c.toNat ≤ 57) ∨ (97 ≤ c.toNat ∧ c.toNat ≤ 102) ∨
    (65 ≤ c.toNat ∧ c.toNat ≤ 70))

/-- Numeric value of a hex digit (meaningful only on hex digits). -/
def hexVal (c : Char) : Nat :=
  if c.toNat ≤ 57 then c.toNat - 48
  else if c.toNat ≤ 70 then c.toNat - 55
  else c.toNat - 87

/-- Model of Python's `bytes.fromhex`: two hex digits per byte; `none`
models the `ValueError` raised on an odd-length or non-hex string.  (The
Python original additionally skips ASCII whitespace; no string built or
tested in this development contains whitespace, so the behaviours agree on
every input used here.) -/
def fromHexPairs : List Char → Option (List Nat)
  | [] => some []
  | [_] => none
  | c1 :: c2 :: rest =>
    if isHexDigit c1 && isHexDigit c2 then
      (fromHexPairs rest).map (fun bs => (hexVal c1 * 16 + hexVal c2) :: bs)
    else none

/-- Lower-case hex digit character for a value below 16. -/
def hexDigitChar (n : Nat) : Char :=
  if n < 10 then Char.ofNat (48 + n) else Char.ofNat (87 + n)

/-- Fuel-driven digit extraction for hex rendering.  The fuel argument only
makes the recursion structural; `toHex` passes `n` itself, which always
suffices since `n / 16` strictly decreases. -/
def toHexGo : Nat → Nat → List Char → List Char
  | 0, _, acc => acc
  | fuel + 1, n, acc =>
    if n = 0 then acc else toHexGo fuel (n / 16) (hexDigitChar (n % 16) :: acc)

/-- Python's `format(n, 'x')` for a natural number: lower-case hex digits,
no padding, `"0"` for zero. -/
def toHex (n : Nat) : List Char := if n = 0 then ['0'] else toHexGo n n []

/-- Zero-pad a digit string on the left to width two, as the format spec
`02x` does for non-negative values. -/
def pad2 (s : List Char) : List Char := List.replicate (2 - s.length) '0' ++ s

/-- Python's `f'{d:02x}'` for an `int`: non-negative values render as
zero-padded lower-case hex; negative values render as a minus sign followed
by the hex digits of the magnitude, the sign counting toward the width. -/
def formatInt02x (d : Int) : List Char :=
  if d < 0 then
    '-' :: (List.replicate (1 - (toHex d.natAbs).length) '0' ++ toHex d.natAbs)
  else pad2 (toHex d.toNat)

/-- `RS485Commands.OPEN` from the source: the only command code. -/
def RS485Commands.OPEN : List Char := "0111".toList

/-- `RS485PacketBuilder.calculate_lrc`: XOR-fold of all bytes. -/
def calculate_lrc (data : List Nat) : Nat :=
  data.foldl (fun lrc byte => lrc ^^^ byte) 0

/-- The local variable `packet` of `RS485PacketBuilder.build_packet`
(the checksummed payload hex string), factored out so the theorems can
name it: `packet_length + command_code + address + return_code +
data_content`. -/
def packetCore (address command_code : List Char) (door_number : Int) : List Char :=
  let return_code := "0000".toList
  let data_content := formatInt02x door_number
  let packet_length := "0007".toList
  packet_length ++ command_code ++ address ++ return_code ++ data_content

/-- `RS485PacketBuilder.build_packet`: frame the payload with the `f3`
start marker and the two-hex-digit LRC.  `none` models the `ValueError`
that `bytes.fromhex` raises out of the Python function on a malformed
payload string. -/
def build_packet (address command_code : List Char) (door_number : Int) :
    Option (List Char) :=
  let packet := packetCore address command_code door_number
  match fromHexPairs packet with
  | none => none
  | some bs => some ("f3".toList ++ packet ++ pad2 (toHex (calculate_lrc bs)))

/-- The external `serial.Serial` object, reduced to the one attribute the
source reads: `is_open`. -/
structure SerialPort where
  is_open : Bool
deriving DecidableEq

/-- The mutable state of `RS485Communicator`: `self.ser`, which is `None`
or a serial-port object. -/
structure CommState where
  ser : Option SerialPort
deriving DecidableEq

/-- The truth value of Python's `self.ser and self.ser.is_open` — the Link
is Open exactly when a port object exists and is open. -/
def serOpen (s : CommState) : Bool :=
  match s.ser with
  | none => false
  | some p => p.is_open

/-- Severity of an emitted log record. -/
inductive LogLevel
  | info
  | warning
  | error
deriving DecidableEq

/-- Outcome of evaluating the external `serial.Serial(port, baudrate,
timeout=1)` constructor: a successfully opened port, or a
`SerialException`. -/
inductive OpenResult
  | ok
  | err
deriving DecidableEq

/-- Result of `open_connection`: the new state, the log records emitted,
and how many times `serial.Serial` was invoked. -/
structure OpenOut where
  state : CommState
  logs : List LogLevel
  attempts : Nat
deriving DecidableEq

/-- `RS485Communicator.open_connection`: if the Link is not Open, attempt
`serial.Serial` once; success stores the opened port and logs at info,
failure is caught (never re-raised — the function is total), resets
`self.ser` to `None` and logs at error.  If the Link is already Open the
body is skipped. -/
def open_connection (s : CommState) (r : OpenResult) : OpenOut :=
  if serOpen s then ⟨s, [], 0⟩
  else
    match r with
    | .ok => ⟨⟨some ⟨true⟩⟩, [.info], 1⟩
    | .err => ⟨⟨none⟩, [.error], 1⟩

/-- One iteration of the body of `RS485Communicator.reconnect`, the
background supervisor loop: if the Link is not Open, log a warning and call
`open_connection`; otherwise do nothing. -/
def reconnect_step (s : CommState) (r : OpenResult) : CommState × List LogLevel :=
  if serOpen s then (s, [])
  else
    let o := open_connection s r
    (o.state, .warning :: o.logs)

/-- Outcome of the external `self.ser.write(...)` call. -/
inductive WriteResult
  | ok
  | err
deriving DecidableEq

/-- The environment of one `send_packet` call: what `serial.Serial` would
do if invoked, and what `ser.write` would do if reached. -/
structure SendEnv where
  openResult : OpenResult
  writeResult : WriteResult
deriving DecidableEq

/-- How a `send_packet` call returns to its caller: normally, by raising
`SerialException`, or by raising `ValueError` (from `bytes.fromhex`, which
the `except serial.SerialException` clause does not catch). -/
inductive SendOutcome
  | sent
  | raisedSerial
  | raisedValue
deriving DecidableEq

/-- Result of `send_packet`: the outcome, the state of `self` afterwards,
the byte sequences written to the port, and the number of `serial.Serial`
invocations made on the way. -/
structure SendResult where
  outcome : SendOutcome
  state : CommState
  written : List (List Nat)
  openAttempts : Nat
deriving DecidableEq

/-- `RS485Communicator.send_packet`: if the Link is not Open, call
`open_connection` once; if the Link is still not Open, raise
`SerialException`.  Otherwise decode the hex string and write the bytes;
a `SerialException` from the write is logged and re-raised with no change
to `self.ser`. -/
def send_packet (s : CommState) (env : SendEnv) (packet : List Char) : SendResult :=
  let o := if serOpen s then OpenOut.mk s [] 0 else open_connection s env.openResult
  if serOpen o.state then
    match fromHexPairs packet with
    | none => ⟨.raisedValue, o.state, [], o.attempts⟩
    | some packet_bytes =>
      match env.writeResult with
      | .ok => ⟨.sent, o.state, [packet_bytes], o.attempts⟩
      | .err => ⟨.raisedSerial, o.state, [], o.attempts⟩
  else ⟨.raisedSerial, o.state, [], o.attempts⟩

/-- The two threads that reach `open_connection` in the source: the
foreground request path inside `send_packet`, and the background
`reconnect` thread. -/
inductive Tid
  | fg
  | bg
deriving DecidableEq

/-- A configuration of the interleaving model: whether the shared Link is
open, and a program counter per thread.  Counters: 0 = before the
thread's own `not open` check; 1 = observed not-Open, about to enter
`open_connection`; 2 = passed `open_connection`'s internal guard and
executing the `serial.Serial(...)` open attempt; 3 = finished. -/
structure RaceState where
  linkOpen : Bool
  pcFg : Nat
  pcBg : Nat
deriving DecidableEq

/-- One atomic step of a single thread.  Both call sites run the same
three-step program: check, enter `open_connection` (its internal guard is
a second check), perform the open attempt (which publishes an open port).
No lock appears anywhere in the source, so a step is any single check or
the attempt itself. -/
def stepThread (pc : Nat) (link : Bool) : Nat × Bool :=
  match pc with
  | 0 => (if link then 3 else 1, link)
  | 1 => (if link then 3 else 2, link)
  | 2 => (3, true)
  | _ => (pc, link)

/-- Apply one step of the scheduled thread to the shared configuration. -/
def stepRace (s : RaceState) : Tid → RaceState
  | .fg =>
    let r := stepThread s.pcFg s.linkOpen
    { s with pcFg := r.1, linkOpen := r.2 }
  | .bg =>
    let r := stepThread s.pcBg s.linkOpen
    { s with pcBg := r.1, linkOpen := r.2 }

/-- The sequence of configurations visited while running a schedule. -/
def raceTrace (s : RaceState) : List Tid → List RaceState
  | [] => [s]
  | t :: ts => s :: raceTrace (stepRace s t) ts

/-- Both threads are inside the `serial.Serial(...)` open attempt at the
same time. -/
def bothInAttempt (s : RaceState) : Bool := s.pcFg == 2 && s.pcBg == 2

/-- A schedule keeps the open attempts mutually exclusive if no visited
configuration has both threads inside the attempt, starting from a Closed
link with both threads at their checks. -/
def overlapFree (sched : List Tid) : Bool :=
  (raceTrace ⟨false, 0, 0⟩ sched).all (fun s => !(bothInAttempt s))

/-- Value bound for hex digits. -/
theorem hexVal_lt {c : Char} (h : isHexDigit c = true) : hexVal c < 16 := by
  unfold isHexDigit at h
  have h2 := of_decide_eq_true h
  unfold hexVal
  rcases h2 with ⟨_, _⟩ | ⟨_, _⟩ | ⟨_, _⟩ <;> split_ifs <;> omega

/-- Decoding distributes over concatenation of decodable strings. -/
theorem fromHexPairs_append {s t : List Char} {bs bt : List Nat}
    (hs : fromHexPairs s = some bs) (ht : fromHexPairs t = some bt) :
    fromHexPairs (s ++ t) = some (bs ++ bt) := by
  induction s using fromHexPairs.induct generalizing bs with
  | case1 =>
    simp [fromHexPairs] at hs
    subst hs
    simpa using ht
  | case2 c =>
    simp [fromHexPairs] at hs
  | case3 c1 c2 rest hhex ih =>
    rw [fromHexPairs, if_pos hhex] at hs
    rcases Option.map_eq_some'.mp hs with ⟨bs', hbs', hcons⟩
    subst hcons
    simp only [List.cons_append]
    rw [fromHexPairs, if_pos hhex, ih hbs']
    rfl
  | case4 c1 c2 rest hhex =>
    rw [fromHexPairs, if_neg hhex] at hs
    exact absurd hs (by simp)

/-- A decodable string has twice as many characters as the decoded bytes. -/
theorem fromHexPairs_some_length {s : List Char} {bs : List Nat}
    (h : fromHexPairs s = some bs) : s.length = 2 * bs.length := by
  induction s using fromHexPairs.induct generalizing bs with
  | case1 => simp [fromHexPairs] at h; subst h; rfl
  | case2 c => simp [fromHexPairs] at h
  | case3 c1 c2 rest hhex ih =>
    rw [fromHexPairs, if_pos hhex] at h
    rcases Option.map_eq_some'.mp h with ⟨bs', hbs', hcons⟩
    subst hcons
    have := ih hbs'
    simp only [List.length_cons, this]
    omega
  | case4 c1 c2 rest hhex =>
    rw [fromHexPairs, if_neg hhex] at h
    exact absurd h (by simp)

/-- Every decoded byte is below 256. -/
theorem fromHexPairs_mem_lt {s : List Char} {bs : List Nat}
    (h : fromHexPairs s = some bs) : ∀ b ∈ bs, b < 256 := by
  induction s using fromHexPairs.induct generalizing bs with
  | case1 => simp [fromHexPairs] at h; subst h; simp
  | case2 c => simp [fromHexPairs] at h
  | case3 c1 c2 rest hhex ih =>
    rw [fromHexPairs, if_pos hhex] at h
    rcases Option.map_eq_some'.mp h with ⟨bs', hbs', hcons⟩
    subst hcons
    intro b hb
    rcases List.mem_cons.mp hb with hb | hb
    · subst hb
      have hpair : isHexDigit c1 = true ∧ isHexDigit c2 = true := by
        simpa using hhex
      have hv1 := hexVal_lt hpair.1
      have h2 := hpair.2
      have hv2 := hexVal_lt h2
      omega
    · exact ih hbs' b hb
  | case4 c1 c2 rest hhex =>
    rw [fromHexPairs, if_neg hhex] at h
    exact absurd h (by simp)

/-- Every character of a decodable string is a hex digit. -/
theorem fromHexPairs_some_allHex {s : List Char} {bs : List Nat}
    (h : fromHexPairs s = some bs) : ∀ c ∈ s, isHexDigit c = true := by
  induction s using fromHexPairs.induct generalizing bs with
  | case1 => simp
  | case2 c => simp [fromHexPairs] at h
  | case3 c1 c2 rest hhex ih =>
    rw [fromHexPairs, if_pos hhex] at h
    rcases Option.map_eq_some'.mp h with ⟨bs', hbs', _⟩
    have hpair : isHexDigit c1 = true ∧ isHexDigit c2 = true := by
      simpa using hhex
    intro c hc
    rcases List.mem_cons.mp hc with rfl | hc
    · exact hpair.1
    rcases List.mem_cons.mp hc with rfl | hc
    · exact hpair.2
    · exact ih hbs' c hc
  | case4 c1 c2 rest hhex =>
    rw [fromHexPairs, if_neg hhex] at h
    exact absurd h (by simp)

/-- An even-length all-hex string decodes successfully. -/
theorem fromHexPairs_total {s : List Char} (heven : s.length % 2 = 0)
    (hhex : ∀ c ∈ s, isHexDigit c = true) : ∃ bs, fromHexPairs s = some bs := by
  induction s using fromHexPairs.induct with
  | case1 => exact ⟨[], rfl⟩
  | case2 c => simp at heven
  | case3 c1 c2 rest hhex2 ih =>
    have he : rest.length % 2 = 0 := by
      simp only [List.length_cons] at heven
      omega
    rcases ih he (fun c hc => hhex c (by simp [hc])) with ⟨bs, hbs⟩
    exact ⟨_, by rw [fromHexPairs, if_pos hhex2, hbs]; rfl⟩
  | case4 c1 c2 rest hhex2 =>
    have h1 := hhex c1 (by simp)
    have h2 := hhex c2 (by simp)
    simp [h1, h2] at hhex2

set_option maxRecDepth 10000 in
/-- Rendering a byte value as two zero-padded hex digits and decoding it
recovers exactly that byte. -/
theorem fromHexPairs_pad2_toHex : ∀ n < 256, fromHexPairs (pad2 (toHex n)) = some [n] := by
  decide

/-- The two-digit rendering of a byte value has length two. -/
theorem pad2_toHex_length {n : Nat} (h : n < 256) : (pad2 (toHex n)).length = 2 := by
  have := fromHexPairs_some_length (fromHexPairs_pad2_toHex n h)
  simpa using this

/-- The two-digit rendering of a byte value is all hex digits. -/
theorem pad2_toHex_allHex {n : Nat} (h : n < 256) :
    ∀ c ∈ pad2 (toHex n), isHexDigit c = true :=
  fromHexPairs_some_allHex (fromHexPairs_pad2_toHex n h)

/-- XOR-folding byte values stays below 256. -/
theorem foldl_xor_lt (bs : List Nat) : ∀ acc, acc < 256 → (∀ b ∈ bs, b < 256) →
    List.foldl (fun lrc byte => lrc ^^^ byte) acc bs < 256 := by
  induction bs with
  | nil => intro acc hacc _; simpa using hacc
  | cons b bs ih =>
    intro acc hacc hmem
    simp only [List.foldl_cons]
    refine ih _ ?_ (fun x hx => hmem x (List.mem_cons_of_mem _ hx))
    have hb : b < 256 := hmem b (List.mem_cons_self b bs)
    have h8 : (256 : Nat) = 2 ^ 8 := by norm_num
    rw [h8] at hacc hb ⊢
    exact Nat.bitwise_lt hacc hb

/-- The LRC of a byte sequence is itself a byte value. -/
theorem calculate_lrc_lt {bs : List Nat} (h : ∀ b ∈ bs, b < 256) :
    calculate_lrc bs < 256 :=
  foldl_xor_lt bs 0 (by norm_num) h

/-- Python's `02x` format of a non-negative `int` agrees with the
zero-padded natural-number rendering. -/
theorem formatInt02x_nonneg {d : Int} (h : 0 ≤ d) :
    formatInt02x d = pad2 (toHex d.toNat) := by
  unfold formatInt02x
  rw [if_neg (by omega)]

/-- Dropping the last element twice removes a two-element suffix. -/
theorem dropLast_append_two {α : Type} (l : List α) (a b : α) :
    ((l ++ [a, b]).dropLast).dropLast = l := by
  have h1 : l ++ [a, b] = (l ++ [a]) ++ [b] := by simp
  rw [h1]
  rw [List.dropLast_concat, List.dropLast_concat]

/-- Decomposition of a successfully built packet: the payload decodes to
eight bytes, the LRC is a byte value, and the output is the marker, the
payload hex string and the two checksum digits. -/
theorem build_packet_decomp (addr cc : List Char) (d : Int)
    (ha2 : addr.length = 2) (hah : ∀ c ∈ addr, isHexDigit c = true)
    (hc4 : cc.length = 4) (hch : ∀ c ∈ cc, isHexDigit c = true)
    (hd0 : 0 ≤ d) (hd1 : d ≤ 255) :
    ∃ bs, fromHexPairs (packetCore addr cc d) = some bs ∧
      (packetCore addr cc d).length = 16 ∧ bs.length = 8 ∧
      calculate_lrc bs < 256 ∧
      build_packet addr cc d =
        some ("f3".toList ++ packetCore addr cc d ++ pad2 (toHex (calculate_lrc bs))) := by
  have hdn : d.toNat < 256 := by omega
  have harg : fromHexPairs (formatInt02x d) = some [d.toNat] := by
    rw [formatInt02x_nonneg hd0]
    exact fromHexPairs_pad2_toHex _ hdn
  obtain ⟨ba, hba⟩ := fromHexPairs_total (s := addr) (by omega) hah
  obtain ⟨bc, hbc⟩ := fromHexPairs_total (s := cc) (by omega) hch
  have hlen : fromHexPairs ("0007".toList) = some [0, 7] := by decide
  have hret : fromHexPairs ("0000".toList) = some [0, 0] := by decide
  have hcore : fromHexPairs (packetCore addr cc d) =
      some ([0, 7] ++ bc ++ ba ++ [0, 0] ++ [d.toNat]) := by
    simp only [packetCore]
    exact fromHexPairs_append (fromHexPairs_append (fromHexPairs_append
      (fromHexPairs_append hlen hbc) hba) hret) harg
  have hcorelen : (packetCore addr cc d).length = 16 := by
    have e1 : ("0007".toList).length = 4 := rfl
    have e2 : ("0000".toList).length = 4 := rfl
    have e3 : (formatInt02x d).length = 2 := by
      rw [formatInt02x_nonneg hd0]
      exact pad2_toHex_length hdn
    simp only [packetCore, List.length_append, e1, e2, e3, ha2, hc4]
  have hbslen : ([0, 7] ++ bc ++ ba ++ [0, 0] ++ [d.toNat]).length = 8 := by
    have := fromHexPairs_some_length hcore
    omega
  have hlrc : calculate_lrc ([0, 7] ++ bc ++ ba ++ [0, 0] ++ [d.toNat]) < 256 :=
    calculate_lrc_lt (fromHexPairs_mem_lt hcore)
  refine ⟨_, hcore, hcorelen, hbslen, hlrc, ?_⟩
  simp only [build_packet]
  rw [hcore]

/-- C1: for every packet built from a valid one-byte hex address, four-hex-digit
command code and door number in 0..255, the XOR of the decoded payload bytes
(length through argument, excluding the `f3` marker and the checksum byte)
equals the checksum byte appended at the end of the packet. -/
theorem build_packet_checksum_correct (addr cc : List Char) (d : Int)
    (ha2 : addr.length = 2) (hah : ∀ c ∈ addr, isHexDigit c = true)
    (hc4 : cc.length = 4) (hch : ∀ c ∈ cc, isHexDigit c = true)
    (hd0 : 0 ≤ d) (hd1 : d ≤ 255) :
    ∃ bs, fromHexPairs (packetCore addr cc d) = some bs ∧
      build_packet addr cc d =
        some ("f3".toList ++ packetCore addr cc d ++ pad2 (toHex (calculate_lrc bs))) ∧
      fromHexPairs (pad2 (toHex (calculate_lrc bs))) = some [calculate_lrc bs] := by
  obtain ⟨bs, hcore, _, _, hlrc, hbuild⟩ :=
    build_packet_decomp addr cc d ha2 hah hc4 hch hd0 hd1
  exact ⟨bs, hcore, hbuild, fromHexPairs_pad2_toHex _ hlrc⟩

/-- C1 witness: the checksum property at address "01", command code "0111",
door number 1. -/
theorem build_packet_checksum_correct_witness :
    ∃ bs, fromHexPairs (packetCore ("01".toList) ("0111".toList) 1) = some bs ∧
      build_packet ("01".toList) ("0111".toList) 1 =
        some ("f3".toList ++ packetCore ("01".toList) ("0111".toList) 1 ++
          pad2 (toHex (calculate_lrc bs))) ∧
      fromHexPairs (pad2 (toHex (calculate_lrc bs))) = some [calculate_lrc bs] :=
  build_packet_checksum_correct ("01".toList) ("0111".toList) 1
    (by decide) (by decide) (by decide) (by decide) (by decide) (by decide)

/-- C8: stripping the start marker and the two trailing checksum digits from
the emitted hex string and decoding the remainder reproduces exactly the byte
sequence over which the checksum was computed. -/
theorem build_packet_roundtrip_framing (addr cc : List Char) (d : Int)
    (ha2 : addr.length = 2) (hah : ∀ c ∈ addr, isHexDigit c = true)
    (hc4 : cc.length = 4) (hch : ∀ c ∈ cc, isHexDigit c = true)
    (hd0 : 0 ≤ d) (hd1 : d ≤ 255) :
    ∃ out bs, build_packet addr cc d = some out ∧
      fromHexPairs (packetCore addr cc d) = some bs ∧
      ((out.drop 2).dropLast).dropLast = packetCore addr cc d ∧
      fromHexPairs (((out.drop 2).dropLast).dropLast) = some bs := by
  obtain ⟨bs, hcore, _, _, hlrc, hbuild⟩ :=
    build_packet_decomp addr cc d ha2 hah hc4 hch hd0 hd1
  obtain ⟨x, y, hxy⟩ := List.length_eq_two.mp (pad2_toHex_length hlrc)
  have hstrip :
      ((("f3".toList ++ packetCore addr cc d ++ pad2 (toHex (calculate_lrc bs))).drop
        2).dropLast).dropLast = packetCore addr cc d := by
    have hdrop : ("f3".toList ++ packetCore addr cc d ++
        pad2 (toHex (calculate_lrc bs))).drop 2 =
        packetCore addr cc d ++ pad2 (toHex (calculate_lrc bs)) := rfl
    rw [hdrop, hxy, dropLast_append_two]
  refine ⟨_, bs, hbuild, hcore, hstrip, ?_⟩
  rw [hstrip]
  exact hcore

/-- C8 witness: round-trip framing at address "01", command code "0111",
door number 1. -/
theorem build_packet_roundtrip_framing_witness :
    ∃ out bs, build_packet ("01".toList) ("0111".toList) 1 = some out ∧
      fromHexPairs (packetCore ("01".toList) ("0111".toList) 1) = some bs ∧
      ((out.drop 2).dropLast).dropLast = packetCore ("01".toList) ("0111".toList) 1 ∧
      fromHexPairs (((out.drop 2).dropLast).dropLast) = some bs :=
  build_packet_roundtrip_framing ("01".toList) ("0111".toList) 1
    (by decide) (by decide) (by decide) (by decide) (by decide) (by decide)

/-- C10: for every two-hex-digit address, four-hex-digit command code and door
number in 0..255, the emitted string is an even-length hex string of exactly
20 characters — marker "f3", a 16-character payload and a two-character
zero-padded checksum — and decodes to exactly 10 raw bytes. -/
theorem build_packet_shape (addr cc : List Char) (d : Int)
    (ha2 : addr.length = 2) (hah : ∀ c ∈ addr, isHexDigit c = true)
    (hc4 : cc.length = 4) (hch : ∀ c ∈ cc, isHexDigit c = true)
    (hd0 : 0 ≤ d) (hd1 : d ≤ 255) :
    ∃ out bs, build_packet addr cc d = some out ∧
      out.length = 20 ∧ (∀ c ∈ out, isHexDigit c = true) ∧
      out.take 2 = "f3".toList ∧
      fromHexPairs out = some bs ∧ bs.length = 10 := by
  obtain ⟨bs, hcore, hcorelen, hbslen, hlrc, hbuild⟩ :=
    build_packet_decomp addr cc d ha2 hah hc4 hch hd0 hd1
  have hck : fromHexPairs (pad2 (toHex (calculate_lrc bs))) = some [calculate_lrc bs] :=
    fromHexPairs_pad2_toHex _ hlrc
  have hf3 : fromHexPairs ("f3".toList) = some [243] := by decide
  have hfull : fromHexPairs ("f3".toList ++ packetCore addr cc d ++
      pad2 (toHex (calculate_lrc bs))) = some ([243] ++ bs ++ [calculate_lrc bs]) :=
    fromHexPairs_append (fromHexPairs_append hf3 hcore) hck
  refine ⟨_, _, hbuild, ?_, fromHexPairs_some_allHex hfull, rfl, hfull, ?_⟩
  · have hcklen : (pad2 (toHex (calculate_lrc bs))).length = 2 := pad2_toHex_length hlrc
    have e0 : ("f3".toList).length = 2 := rfl
    simp only [List.length_append, e0, hcorelen, hcklen]
  · simp only [List.length_append, hbslen, List.length_cons, List.length_nil]

/-- C10 witness: packet shape at address "01", command code "0111", door
number 1. -/
theorem build_packet_shape_witness :
    ∃ out bs, build_packet ("01".toList) ("0111".toList) 1 = some out ∧
      out.length = 20 ∧ (∀ c ∈ out, isHexDigit c = true) ∧
      out.take 2 = "f3".toList ∧
      fromHexPairs out = some bs ∧ bs.length = 10 :=
  build_packet_shape ("01".toList) ("0111".toList) 1
    (by decide) (by decide) (by decide) (by decide) (by decide) (by decide)

/-- C2 counterexample: at address "01", command code "0111", door number 1,
the computed LRC is not hex 1e, and the built packet does not end in "1e". -/
theorem scenario1_lrc_not_1e :
    calculate_lrc [0x00, 0x07, 0x01, 0x11, 0x01, 0x00, 0x00, 0x01] ≠ 0x1e ∧
    build_packet ("01".toList) ("0111".toList) 1 ≠
      some ("f30007011101000001".toList ++ "1e".toList) := by decide

/-- C2 amended: at address "01", command code "0111", door number 1, the
packet is "f30007011101000001" followed by the LRC byte, and the LRC (XOR of
bytes 00 07 01 11 01 00 00 01) equals hex 17. -/
theorem scenario1_packet_lrc_17 :
    build_packet ("01".toList) ("0111".toList) 1 =
      some ("f3000701110100000117".toList) ∧
    calculate_lrc [0x00, 0x07, 0x01, 0x11, 0x01, 0x00, 0x00, 0x01] = 0x17 := by decide

/-- C3 counterexample: the two-byte address "0102" is not rejected — the
packet is built without any error. -/
theorem two_byte_address_not_rejected :
    build_packet ("0102".toList) ("0111".toList) 1 =
      some ("f300070111010200000115".toList) := by decide

/-- C3 amended: door number 0 encodes argument "00" and 255 encodes "ff";
door number 256 or a negative door number makes the encoding fail (the
ValueError escape of the hex decoding inside build_packet, not a
pre-encoding validation); an address that is not exactly one byte is not
rejected — the two-byte address "0102" encodes without error. -/
theorem build_packet_boundary_amended (addr cc : List Char) (d : Int)
    (ha2 : addr.length = 2) (hc4 : cc.length = 4) (hneg : d < 0) :
    build_packet ("01".toList) ("0111".toList) 0 =
      some ("f3000701110100000016".toList) ∧
    build_packet ("01".toList) ("0111".toList) 255 =
      some ("f300070111010000ffe9".toList) ∧
    build_packet addr cc 256 = none ∧
    build_packet addr cc d = none ∧
    (build_packet ("0102".toList) ("0111".toList) 1).isSome = true := by
  refine ⟨by decide, by decide, ?_, ?_, by decide⟩
  · simp only [build_packet]
    cases hcase : fromHexPairs (packetCore addr cc 256) with
    | none => rfl
    | some bs =>
      exfalso
      have hlen := fromHexPairs_some_length hcase
      have e1 : ("0007".toList).length = 4 := rfl
      have e2 : ("0000".toList).length = 4 := rfl
      have e3 : (formatInt02x 256).length = 3 := rfl
      have hodd : (packetCore addr cc 256).length = 17 := by
        simp only [packetCore, List.length_append, e1, e2, e3, ha2, hc4]
      omega
  · simp only [build_packet]
    cases hcase : fromHexPairs (packetCore addr cc d) with
    | none => rfl
    | some bs =>
      exfalso
      have hdc : '-' ∈ formatInt02x d := by
        unfold formatInt02x
        rw [if_pos hneg]
        exact List.mem_cons_self _ _
      have hmem : '-' ∈ packetCore addr cc d := by
        simp only [packetCore]
        exact List.mem_append_right _ hdc
      exact absurd (fromHexPairs_some_allHex hcase '-' hmem) (by decide)

/-- C3 amended witness: the amended boundary property instantiated at
address "01", command code "0111" and door number -1. -/
theorem build_packet_boundary_amended_witness :
    build_packet ("01".toList) ("0111".toList) 256 = none ∧
    build_packet ("01".toList) ("0111".toList) (-1) = none := by
  have h := build_packet_boundary_amended ("01".toList) ("0111".toList) (-1)
    (by decide) (by decide) (by decide)
  exact ⟨h.2.2.1, h.2.2.2.1⟩

/-- Evaluation of serOpen on an absent handle. -/
theorem serOpen_none : serOpen ⟨none⟩ = false := rfl

/-- Evaluation of serOpen on a present handle. -/
theorem serOpen_some (b : Bool) : serOpen ⟨some ⟨b⟩⟩ = b := rfl

/-- C4: when the Link is not Open, send_packet makes exactly one synchronous
open attempt; if that attempt also fails, the caller receives the raised
SerialException and no bytes are written to the port. -/
theorem send_packet_closed_link_one_attempt (s : CommState) (env : SendEnv)
    (p : List Char) (h : serOpen s = false) :
    (send_packet s env p).openAttempts = 1 ∧
    (env.openResult = OpenResult.err →
      (send_packet s env p).outcome = SendOutcome.raisedSerial ∧
      (send_packet s env p).written = []) := by
  obtain ⟨orr, wr⟩ := env
  cases orr with
  | ok =>
    refine ⟨?_, (fun hco => nomatch hco)⟩
    cases hfx : fromHexPairs p <;> cases wr <;>
      simp [send_packet, open_connection, h, hfx, serOpen_none, serOpen_some]
  | err =>
    refine ⟨?_, fun _ => ?_⟩ <;>
      simp [send_packet, open_connection, h, serOpen_none, serOpen_some]

/-- C4 witness: a closed Link (no serial object) with a failing open
attempt: one attempt, a raised SerialException, nothing written. -/
theorem send_packet_closed_link_one_attempt_witness :
    serOpen ⟨none⟩ = false ∧
    (send_packet ⟨none⟩ ⟨OpenResult.err, WriteResult.ok⟩ ("f3".toList)).openAttempts = 1 ∧
    (send_packet ⟨none⟩ ⟨OpenResult.err, WriteResult.ok⟩ ("f3".toList)).outcome =
      SendOutcome.raisedSerial ∧
    (send_packet ⟨none⟩ ⟨OpenResult.err, WriteResult.ok⟩ ("f3".toList)).written = [] := by
  have h := send_packet_closed_link_one_attempt ⟨none⟩ ⟨OpenResult.err, WriteResult.ok⟩
    ("f3".toList) (by decide)
  exact ⟨by decide, h.1, (h.2 rfl).1, (h.2 rfl).2⟩

/-- C5: at the failing input — Link Open, write raises SerialException — the
exception is re-raised, but self.ser is left unchanged and still open, so a
subsequent background health check sees an Open link and makes no retry. -/
theorem send_packet_write_error_leaves_link_open :
    send_packet ⟨some ⟨true⟩⟩ ⟨OpenResult.err, WriteResult.err⟩
      ("f3000701110100000117".toList) =
      ⟨SendOutcome.raisedSerial, ⟨some ⟨true⟩⟩, [], 0⟩ ∧
    serOpen ⟨some ⟨true⟩⟩ = true ∧
    reconnect_step ⟨some ⟨true⟩⟩ OpenResult.ok = (⟨some ⟨true⟩⟩, []) := by decide

/-- C6: open_connection is total (the SerialException is caught, never
re-raised); when the Link is not Open, a successful attempt transitions it
to Open and logs at info, a failed attempt resets the handle to absent
(Closed) and logs at error. -/
theorem open_connection_no_raise (s : CommState) (r : OpenResult)
    (h : serOpen s = false) :
    (r = OpenResult.ok → serOpen (open_connection s r).state = true ∧
      (open_connection s r).logs = [LogLevel.info]) ∧
    (r = OpenResult.err → (open_connection s r).state.ser = none ∧
      (open_connection s r).logs = [LogLevel.error]) := by
  cases r with
  | ok =>
    refine ⟨fun _ => ?_, fun hr => nomatch hr⟩
    simp [open_connection, h, serOpen_some]
  | err =>
    refine ⟨(fun hr => nomatch hr), fun _ => ?_⟩
    simp [open_connection, h]

/-- C6 witness: from the initial state (no serial object), a successful open
yields an Open link and a failed open leaves the handle absent. -/
theorem open_connection_no_raise_witness :
    serOpen ⟨none⟩ = false ∧
    serOpen (open_connection ⟨none⟩ OpenResult.ok).state = true ∧
    (open_connection ⟨none⟩ OpenResult.err).state.ser = none := by
  have h1 := open_connection_no_raise ⟨none⟩ OpenResult.ok (by decide)
  have h2 := open_connection_no_raise ⟨none⟩ OpenResult.err (by decide)
  exact ⟨by decide, (h1.1 rfl).1, (h2.2 rfl).1⟩

/-- C7: build_packet is deterministic — two calls with identical inputs give
identical output.  Purity holds by construction of the embedding: the
source function reads only its parameters and literals, so its model is a
function of its arguments alone. -/
theorem build_packet_deterministic (a1 c1 : List Char) (d1 : Int)
    (a2 c2 : List Char) (d2 : Int)
    (ha : a1 = a2) (hc : c1 = c2) (hd : d1 = d2) :
    build_packet a1 c1 d1 = build_packet a2 c2 d2 := by
  rw [ha, hc, hd]

/-- C7 witness: determinism at address "01", the OPEN command code, door 1. -/
theorem build_packet_deterministic_witness :
    build_packet ("01".toList) RS485Commands.OPEN 1 =
      build_packet ("01".toList) RS485Commands.OPEN 1 :=
  build_packet_deterministic ("01".toList) RS485Commands.OPEN 1
    ("01".toList) RS485Commands.OPEN 1 rfl rfl rfl

/-- C9: with the Link starting Closed, the schedule that alternates the
foreground send path and the background supervisor — both observing
not-Open, then both entering open_connection — reaches a configuration
with two concurrent serial-open attempts: the source takes no lock, so the
call sites are not mutually exclusive. -/
theorem concurrent_open_attempts_possible :
    ((raceTrace ⟨false, 0, 0⟩ [Tid.fg, Tid.bg, Tid.fg, Tid.bg]).any bothInAttempt) = true ∧
    overlapFree [Tid.fg, Tid.bg, Tid.fg, Tid.bg] = false := by decide
